import Mathlib

/-!
Verification development for the chatme-be messaging backend.

The definitions below are a shallow embedding of the TypeScript source:

* `generateChatRoomId` embeds `src/utils/chatRoomUtils.ts` (`[u1,u2].sort()`
  followed by a join on `"_"`);
* `Message`, `MessageStatus`, `DeleteType` embed `src/models/Message.ts`;
* the socket event handlers of `src/socket/socketHandler.ts` are embedded as
  pure state transformers over a list of `Message` records standing for the
  MongoDB collection (the store is modelled as a list with unique `id`s;
  `findByIdAndUpdate` / `updateMany` become `List.map` of a per-record step,
  `findById` becomes `List.find?` on the `id` field);
* the history queries of `socketHandler.ts` (`load-chat-history`) and
  `src/routes/messageRoutes.ts` (`GET /history/:userId1/:userId2`) are embedded
  as filter / sort / limit pipelines mirroring the Mongo query they issue.

Timestamps and message ids are modelled as `Nat`; user ids, room ids and
message bodies stay `String`.
-/

inductive MessageStatus
  | sent
  | delivered
  | seen
deriving DecidableEq

inductive DeleteType
  | none
  | for_me
  | for_both
deriving DecidableEq

/-- Embedding of the `Message` mongoose schema (`src/models/Message.ts`).
Object ids are modelled as `Nat`, dates as `Nat`. -/
structure Message where
  id : Nat
  chatRoomId : String
  senderId : String
  receiverId : String
  message : String
  status : MessageStatus
  timestamp : Nat
  replyTo : Option Nat
  isEdited : Bool
  deletedFor : List String
  deleteType : DeleteType
deriving DecidableEq

/-- JavaScript's default string comparison: lexicographic by character code.
This is the comparator `Array.prototype.sort` applies to
`[userId1, userId2]` in `generateChatRoomId`. -/
def jsLtChars : List Char → List Char → Bool
  | [], [] => false
  | [], _ :: _ => true
  | _ :: _, [] => false
  | a :: as, b :: bs => if a < b then true else if b < a then false else jsLtChars as bs

/-- Strict lexicographic comparison of two strings by character code. -/
def jsStrLt (a b : String) : Bool := jsLtChars a.data b.data

/-- Embedding of `generateChatRoomId` (`src/utils/chatRoomUtils.ts`):
`[userId1, userId2].sort()` puts the lexicographically smaller string first —
a stable two-element sort swaps the pair exactly when the second element
compares strictly below the first — and the two are joined with the fixed
separator `"_"`. -/
def generateChatRoomId (userId1 userId2 : String) : String :=
  if jsStrLt userId2 userId1 then userId2 ++ "_" ++ userId1
  else userId1 ++ "_" ++ userId2

/-- Characters that can appear in a `userId` issued by the signup route
(`src/routes/authRoutes.ts`: `const userId = uuidv4()`): the canonical textual
form of a version-4 UUID uses lowercase hexadecimal digits and hyphens. -/
def isUuidChar (c : Char) : Bool :=
  c.isDigit || (('a' ≤ c) && (c ≤ 'f')) || (c = '-')

theorem jsLtChars_asymm (x y : List Char) (h : jsLtChars x y = true) :
    jsLtChars y x = false := by
  induction x generalizing y with
  | nil =>
    cases y with
    | nil => simp [jsLtChars]
    | cons b bs => simp [jsLtChars]
  | cons a as ih =>
    cases y with
    | nil => simp [jsLtChars] at h
    | cons b bs =>
      by_cases hab : a < b
      · have hba : ¬ b < a := lt_asymm hab
        simp [jsLtChars, hab, hba]
      · by_cases hba : b < a
        · simp [jsLtChars, hab, hba] at h
        · simp only [jsLtChars, if_neg hab, if_neg hba] at h
          simp only [jsLtChars, if_neg hba, if_neg hab]
          exact ih bs h

theorem jsLtChars_antisymm (x y : List Char) (h1 : jsLtChars x y = false)
    (h2 : jsLtChars y x = false) : x = y := by
  induction x generalizing y with
  | nil =>
    cases y with
    | nil => rfl
    | cons b bs => simp [jsLtChars] at h1
  | cons a as ih =>
    cases y with
    | nil => simp [jsLtChars] at h2
    | cons b bs =>
      by_cases hab : a < b
      · simp [jsLtChars, hab] at h1
      · by_cases hba : b < a
        · simp [jsLtChars, hba] at h2
        · have hchar : a = b := le_antisymm (le_of_not_lt hba) (le_of_not_lt hab)
          simp only [jsLtChars, if_neg hab, if_neg hba] at h1
          simp only [jsLtChars, if_neg hba, if_neg hab] at h2
          rw [hchar, ih bs h1 h2]

theorem generateChatRoomId_comm (a b : String) :
    generateChatRoomId a b = generateChatRoomId b a := by
  unfold generateChatRoomId
  cases hba : jsStrLt b a with
  | true =>
    have hab : jsStrLt a b = false := jsLtChars_asymm b.data a.data hba
    simp [hab]
  | false =>
    cases hab : jsStrLt a b with
    | true => simp
    | false =>
      have hdata : b.data = a.data := jsLtChars_antisymm b.data a.data hba hab
      have : b = a := by
        cases a with
        | mk da =>
          cases b with
          | mk db => exact congrArg String.mk hdata
      rw [this]

/-- Per-record effect of the `markDelivered` step of the `send-message`
handler (`socketHandler.ts` lines 161-174): `Message.findByIdAndUpdate(id,
{ status: MessageStatus.DELIVERED })` — the status is written unconditionally
on the record whose id matches. -/
def markDeliveredStep (msgId : Nat) (m : Message) : Message :=
  if m.id = msgId then { m with status := MessageStatus.delivered } else m

/-- The store after the `markDelivered` update of the `send-message` handler. -/
def markDelivered (msgId : Nat) (db : List Message) : List Message :=
  db.map (markDeliveredStep msgId)

/-- Per-record effect of the `message-seen` handler's
`Message.updateMany({ _id: { $in: messageIds }, receiverId: userId },
{ status: MessageStatus.SEEN })` (`socketHandler.ts` lines 186-190): a record
transitions to `seen` exactly when its id is in the batch and its receiver is
the calling user. -/
def markSeenStep (messageIds : List Nat) (userId : String) (m : Message) : Message :=
  if m.id ∈ messageIds ∧ m.receiverId = userId then
    { m with status := MessageStatus.seen }
  else m

/-- The store after the `message-seen` bulk update. -/
def markSeen (messageIds : List Nat) (userId : String) (db : List Message) : List Message :=
  db.map (markSeenStep messageIds userId)

/-- First-occurrence deduplication, the behaviour of JavaScript's
`[...new Set(xs)]` used by the `message-seen` handler. -/
def jsDedupAux (acc : List String) : List String → List String
  | [] => []
  | x :: xs => if x ∈ acc then jsDedupAux acc xs else x :: jsDedupAux (x :: acc) xs

/-- `[...new Set(xs)]`. -/
def jsDedup (l : List String) : List String := jsDedupAux [] l

/-- The sender ids the `message-seen` handler notifies (`socketHandler.ts`
lines 192-202): it runs `Message.find({ _id: { $in: messageIds } })` — with no
`receiverId` filter — and collects the distinct `senderId`s. -/
def seenNotifiedSenders (messageIds : List Nat) (db : List Message) : List String :=
  jsDedup ((db.filter (fun m => m.id ∈ messageIds)).map (fun m => m.senderId))

/-- The whole `message-seen` handler: the bulk update followed by the
notification-target computation on the updated store. Returns the new store
and the list of notified sender ids. -/
def messageSeenHandler (messageIds : List Nat) (userId : String) (db : List Message) :
    List Message × List String :=
  (markSeen messageIds userId db,
   seenNotifiedSenders messageIds (markSeen messageIds userId db))

/-- Embedding of the `edit-message` handler (`socketHandler.ts` lines 218-255):
`findById`; if the message is missing or its `senderId` differs from the
requesting `userId`, emit `Unauthorized` and stop; otherwise
`findByIdAndUpdate(messageId, { message: newMessage, isEdited: true })`. -/
def editMessage (messageId : Nat) (newMessage : String) (userId : String)
    (db : List Message) : Except String (List Message) :=
  match db.find? (fun m => m.id = messageId) with
  | Option.none => Except.error "Unauthorized"
  | some m =>
    if m.senderId ≠ userId then Except.error "Unauthorized"
    else Except.ok (db.map (fun x =>
      if x.id = messageId then { x with message := newMessage, isEdited := true } else x))

/-- The two values of the `deleteFor` field of a `delete-message` payload. -/
inductive DeleteFor
  | me
  | both
deriving DecidableEq

/-- Embedding of the `delete-message` handler (`socketHandler.ts` lines
258-299): `findById`, `Message not found` if missing; `deleteFor === 'me'`
pushes `userId` onto `deletedFor` and sets `deleteType := FOR_ME`, but only
when `userId` is not already in `deletedFor` (otherwise nothing is saved);
`deleteFor === 'both'` sets `deleteType := FOR_BOTH` and
`deletedFor := [senderId, receiverId]` unconditionally. -/
def deleteMessage (messageId : Nat) (userId : String) (deleteFor : DeleteFor)
    (db : List Message) : Except String (List Message) :=
  match db.find? (fun m => m.id = messageId) with
  | Option.none => Except.error "Message not found"
  | some m =>
    match deleteFor with
    | DeleteFor.me =>
      if userId ∈ m.deletedFor then Except.ok db
      else Except.ok (db.map (fun x =>
        if x.id = messageId then
          { x with deletedFor := x.deletedFor ++ [userId],
                   deleteType := DeleteType.for_me }
        else x))
    | DeleteFor.both =>
      Except.ok (db.map (fun x =>
        if x.id = messageId then
          { x with deleteType := DeleteType.for_both,
                   deletedFor := [x.senderId, x.receiverId] }
        else x))

/-- Embedding of the message-creation step of the `send-message` handler
(`socketHandler.ts` lines 87-99): the new record is built with the given
`replyTo` (kept as-is when present, with no check that it resolves to a stored
message) and saved. Returns the grown store and the saved record. -/
def createMessage (senderId receiverId body : String) (replyTo : Option Nat)
    (now : Nat) (newId : Nat) (db : List Message) : List Message × Message :=
  let newMessage : Message :=
    { id := newId, chatRoomId := generateChatRoomId senderId receiverId,
      senderId := senderId, receiverId := receiverId, message := body,
      status := MessageStatus.sent, timestamp := now, replyTo := replyTo,
      isEdited := false, deletedFor := [], deleteType := DeleteType.none }
  (db ++ [newMessage], newMessage)

/-- Embedding of the populate step of the `send-message` handler
(`socketHandler.ts` lines 101-108): `Message.findById(savedMessage.replyTo)`;
the referenced record is embedded only when the lookup finds it. -/
def populateReplyTo (db : List Message) (m : Message) : Option Message :=
  m.replyTo.bind (fun rid => db.find? (fun x => x.id = rid))

/-- The Mongo visibility filter shared by `load-chat-history`
(`socketHandler.ts` lines 325-332) and `GET /history/:userId1/:userId2`
(`messageRoutes.ts` lines 15-22): `deleteType: { $ne: 'for_both' }` and
`$or: [ { deletedFor: { $ne: userId1 } }, { deletedFor: { $size: 0 } } ]`.
On an array field, Mongo's `$ne` matches exactly when no element equals the
value, so the `$or` reads: `userId1` is not in `deletedFor`, or `deletedFor`
is empty. -/
def visibleTo (userId1 : String) (m : Message) : Bool :=
  decide (m.deleteType ≠ DeleteType.for_both) &&
    (decide (userId1 ∉ m.deletedFor) || decide (m.deletedFor = []))

/-- The shared history query: filter by `chatRoomId` and the visibility
conditions, then `.sort({ timestamp: 1 })` (a stable ascending sort — embedded
as insertion sort, which computes the same list as any stable sort). This is
exactly what the HTTP route `GET /history/:userId1/:userId2` returns (it
applies no limit). -/
def historyQuery (userId1 userId2 : String) (db : List Message) : List Message :=
  List.insertionSort (fun a b => a.timestamp ≤ b.timestamp)
    (db.filter (fun m =>
      decide (m.chatRoomId = generateChatRoomId userId1 userId2) && visibleTo userId1 m))

/-- The `load-chat-history` socket handler's query: the same filter and
ascending sort, followed by `.limit(100)`, which keeps the first 100 records
of the ascending-sorted result. -/
def loadChatHistory (userId1 userId2 : String) (db : List Message) : List Message :=
  (historyQuery userId1 userId2 db).take 100

/-- Socket.io room membership: the set of socket ids currently joined to a
room (`io.sockets.adapter.rooms`). A user's personal room is named by their
`userId` (`socket.join(data.userId)` in the `join` handler). Absent rooms are
the empty set. -/
def roomSockets (rooms : List (String × List Nat)) (r : String) : List Nat :=
  match rooms.find? (fun p => p.1 = r) with
  | some p => p.2
  | Option.none => []

/-- One outbound socket emission: an event name and the socket id it is
delivered to. -/
structure Emission where
  event : String
  target : Nat
deriving DecidableEq

/-- Embedding of the emission steps of the `send-message` handler
(`socketHandler.ts` lines 133-159), in source order:
if `receiverId !== senderId`, `io.to(receiverId).emit('receive-message', ...)`
(one delivery per socket in the receiver's room, skipped when sender and
receiver coincide); then `socket.emit('message-sent', ...)` to the originating
socket; then `io.to(senderId).emit('message-sent', ...)` (one delivery per
socket in the sender's room). -/
def sendMessageEmissions (rooms : List (String × List Nat))
    (senderId receiverId : String) (originSocket : Nat) : List Emission :=
  (if receiverId ≠ senderId then
      (roomSockets rooms receiverId).map
        (fun c => { event := "receive-message", target := c })
    else []) ++
  ({ event := "message-sent", target := originSocket } ::
    (roomSockets rooms senderId).map
      (fun c => { event := "message-sent", target := c }))

/-- How many copies of an event a given socket receives from an emission
list. -/
def emissionCount (es : List Emission) (eventName : String) (c : Nat) : Nat :=
  (es.filter (fun e => decide (e.event = eventName) && decide (e.target = c))).length

/-- Presence projection of the `User` model (`src/models/User.ts`):
`userId`, `isOnline`, `lastSeen`. -/
structure PresenceUser where
  userId : String
  isOnline : Bool
  lastSeen : Nat
deriving DecidableEq

/-- Embedding of the `disconnect` handler (`socketHandler.ts` lines 366-385):
if the socket carries a `userId`, run `User.findOneAndUpdate({ userId },
{ isOnline: false, lastSeen: new Date() })` and broadcast `user-offline` with
that user id — with no check whether the user has other live sockets.
Returns the updated user store and the list of broadcast user ids. -/
def disconnectHandler (socketUserId : Option String) (now : Nat)
    (users : List PresenceUser) : List PresenceUser × List String :=
  match socketUserId with
  | some u =>
    (users.map (fun p =>
       if p.userId = u then { p with isOnline := false, lastSeen := now } else p),
     [u])
  | Option.none => (users, [])

/-- The `userId` attached to a live socket (`socket.userId`, set by `join`),
looked up in the connection table. -/
def socketUser (conns : List (Nat × String)) (sid : Nat) : Option String :=
  (conns.find? (fun p => p.1 = sid)).map (fun p => p.2)

/-- A full disconnect event: socket.io removes the socket from the connection
table, and the `disconnect` handler runs with that socket's `userId`. Returns
the remaining connections, the updated user store, and the broadcasts. -/
def disconnectEvent (conns : List (Nat × String)) (sid : Nat) (now : Nat)
    (users : List PresenceUser) :
    List (Nat × String) × List PresenceUser × List String :=
  (conns.filter (fun p => p.1 ≠ sid),
   (disconnectHandler (socketUser conns sid) now users).1,
   (disconnectHandler (socketUser conns sid) now users).2)

/-- In a store whose ids are duplicate-free, `find?` on a member's id returns
exactly that member (the embedding's form of `findById`). -/
theorem find?_id_eq_of_mem (db : List Message) (m : Message)
    (hnd : (db.map (fun x => x.id)).Nodup) (hm : m ∈ db) :
    db.find? (fun x => x.id = m.id) = some m := by
  induction db with
  | nil => cases hm
  | cons y ys ih =>
    rcases List.mem_cons.mp hm with h | h
    · subst h
      simp [List.find?]
    · have hnd2 : (ys.map (fun x => x.id)).Nodup := (List.nodup_cons.mp hnd).2
      have hy : y.id ∉ ys.map (fun x => x.id) := (List.nodup_cons.mp hnd).1
      have hne : ¬ (y.id = m.id) := by
        intro he
        exact hy (he ▸ List.mem_map_of_mem (fun x => x.id) h)
      simp [List.find?, hne, ih hnd2 h]

theorem mem_jsDedupAux (l : List String) (acc : List String) (x : String) :
    x ∈ jsDedupAux acc l ↔ x ∈ l ∧ x ∉ acc := by
  induction l generalizing acc with
  | nil => simp [jsDedupAux]
  | cons y ys ih =>
    by_cases hy : y ∈ acc
    · simp only [jsDedupAux, hy, if_true, ih, List.mem_cons]
      constructor
      · rintro ⟨hys, hacc⟩
        exact ⟨Or.inr hys, hacc⟩
      · rintro ⟨hor, hacc⟩
        rcases hor with he | hys
        · exact absurd (he ▸ hy) hacc
        · exact ⟨hys, hacc⟩
    · simp only [jsDedupAux, hy, if_false, List.mem_cons, ih]
      constructor
      · rintro (he | ⟨hys, hnotin⟩)
        · exact ⟨Or.inl he, he ▸ hy⟩
        · exact ⟨Or.inr hys, fun hacc => hnotin (Or.inr hacc)⟩
      · rintro ⟨he | hys, hacc⟩
        · exact Or.inl he
        · by_cases hxy : x = y
          · exact Or.inl hxy
          · exact Or.inr ⟨hys, fun hmem => by
              rcases hmem with h1 | h1
              · exact hxy h1
              · exact hacc h1⟩

theorem mem_jsDedup (l : List String) (x : String) : x ∈ jsDedup l ↔ x ∈ l := by
  simp [jsDedup, mem_jsDedupAux]

/-- Membership in the shared history query is exactly: stored, in the right
conversation, and not excluded by the visibility filter. -/
theorem mem_historyQuery (userId1 userId2 : String) (db : List Message)
    (m : Message) :
    m ∈ historyQuery userId1 userId2 db ↔
      m ∈ db ∧ m.chatRoomId = generateChatRoomId userId1 userId2 ∧
        ¬(m.deleteType = DeleteType.for_both ∨ userId1 ∈ m.deletedFor) := by
  unfold historyQuery visibleTo
  rw [(List.perm_insertionSort _ _).mem_iff, List.mem_filter]
  simp only [Bool.and_eq_true, Bool.or_eq_true, decide_eq_true_eq]
  constructor
  · rintro ⟨hm, hroom, hdel, hvis⟩
    refine ⟨hm, hroom, ?_⟩
    rintro (hboth | hin)
    · exact hdel hboth
    · rcases hvis with hnot | hnil
      · exact hnot hin
      · rw [hnil] at hin
        cases hin
  · rintro ⟨hm, hroom, hnot⟩
    push_neg at hnot
    exact ⟨hm, hroom, hnot.1, Or.inl hnot.2⟩

/-- The socket history (limit 100) only returns records the unlimited query
returns. -/
theorem loadChatHistory_subset (userId1 userId2 : String) (db : List Message)
    (m : Message) (hm : m ∈ loadChatHistory userId1 userId2 db) :
    m ∈ historyQuery userId1 userId2 db :=
  (List.take_sublist 100 (historyQuery userId1 userId2 db)).mem hm

/-- C5: `generateChatRoomId` is a pure function, symmetric in its two
arguments; it concatenates the lexicographically sorted pair with the fixed
separator `"_"`, and that separator is not a character that can occur in a
uuidv4-issued user id. -/
theorem C5_generateChatRoomId_symmetric_sorted (a b : String) :
    generateChatRoomId a b = generateChatRoomId b a ∧
    (∃ lo hi : String, generateChatRoomId a b = lo ++ "_" ++ hi ∧
      jsStrLt hi lo = false ∧ ((lo = a ∧ hi = b) ∨ (lo = b ∧ hi = a))) ∧
    isUuidChar '_' = false := by
  refine ⟨generateChatRoomId_comm a b, ?_, by decide⟩
  cases hba : jsStrLt b a with
  | true =>
    exact ⟨b, a, by simp [generateChatRoomId, hba],
      jsLtChars_asymm b.data a.data hba, Or.inr ⟨rfl, rfl⟩⟩
  | false =>
    exact ⟨a, b, by simp [generateChatRoomId, hba], hba, Or.inl ⟨rfl, rfl⟩⟩

theorem markSeenStep_id (messageIds : List Nat) (userId : String) (m : Message) :
    (markSeenStep messageIds userId m).id = m.id := by
  unfold markSeenStep
  split <;> rfl

theorem markSeenStep_senderId (messageIds : List Nat) (userId : String) (m : Message) :
    (markSeenStep messageIds userId m).senderId = m.senderId := by
  unfold markSeenStep
  split <;> rfl

/-- A `seen` message with no delete state, used to exercise the
`markDelivered` update. -/
def mSeenC1 : Message :=
  { id := 1, chatRoomId := "a_b", senderId := "a", receiverId := "b",
    message := "hi", status := MessageStatus.seen, timestamp := 0,
    replyTo := Option.none, isEdited := false, deletedFor := [],
    deleteType := DeleteType.none }

/-- C1 counterexample: the `markDelivered` update of the send trigger is the
unconditional write `findByIdAndUpdate(id, { status: DELIVERED })`; applied to
a message whose status is already `seen`, it does not leave the status
unchanged — it regresses it to `delivered`, so a markDelivered call can move a
message backward from `seen`. -/
theorem C1_markDelivered_on_seen_counterexample :
    mSeenC1.status = MessageStatus.seen ∧
    (markDelivered 1 [mSeenC1]).map (fun m => m.status) = [MessageStatus.delivered] ∧
    MessageStatus.delivered ≠ MessageStatus.seen := by
  refine ⟨rfl, rfl, by decide⟩

/-- C1 amended: the status-to-delivered update inside the send trigger writes
`delivered` unconditionally. Re-applying it to a message already `delivered`
changes nothing, and `markSeen` alone never moves a `seen` message backward;
but the update always produces status `delivered` on the targeted record, so
it is not a no-op on a `seen` message. -/
theorem C1_markDelivered_unconditional_write (msgId : Nat) (db : List Message)
    (m : Message) (hm : m ∈ db) (hid : m.id = msgId)
    (hnd : (db.map (fun x => x.id)).Nodup) :
    (m.status = MessageStatus.delivered → markDelivered msgId db = db) ∧
    { m with status := MessageStatus.delivered } ∈ markDelivered msgId db ∧
    (∀ messageIds userId x, x.status = MessageStatus.seen →
      (markSeenStep messageIds userId x).status = MessageStatus.seen) := by
  refine ⟨?_, ?_, ?_⟩
  · intro hst
    unfold markDelivered
    have hfix : ∀ x ∈ db, markDeliveredStep msgId x = x := by
      intro x hx
      unfold markDeliveredStep
      by_cases hxe : x.id = msgId
      · have hxm : x = m := List.inj_on_of_nodup_map hnd hx hm (by rw [hxe, hid])
        subst hxm
        rw [if_pos hxe]
        rw [← hst]
      · rw [if_neg hxe]
    rw [List.map_congr_left hfix]
    simp
  · have hstep : markDeliveredStep msgId m = { m with status := MessageStatus.delivered } := by
      unfold markDeliveredStep
      rw [if_pos hid]
    exact hstep ▸ List.mem_map_of_mem (markDeliveredStep msgId) hm
  · intro messageIds userId x hx
    unfold markSeenStep
    by_cases hc : x.id ∈ messageIds ∧ x.receiverId = userId
    · rw [if_pos hc]
    · rw [if_neg hc]
      exact hx

/-- A `delivered` message used as the concrete input of the C1 witness. -/
def mDelivC1 : Message :=
  { id := 2, chatRoomId := "a_b", senderId := "a", receiverId := "b",
    message := "yo", status := MessageStatus.delivered, timestamp := 1,
    replyTo := Option.none, isEdited := false, deletedFor := [],
    deleteType := DeleteType.none }

theorem C1_markDelivered_unconditional_write_witness :
    mDelivC1 ∈ [mDelivC1] ∧ mDelivC1.id = 2 ∧
    (([mDelivC1] : List Message).map (fun x => x.id)).Nodup ∧
    ((mDelivC1.status = MessageStatus.delivered → markDelivered 2 [mDelivC1] = [mDelivC1]) ∧
      { mDelivC1 with status := MessageStatus.delivered } ∈ markDelivered 2 [mDelivC1] ∧
      (∀ messageIds userId x, x.status = MessageStatus.seen →
        (markSeenStep messageIds userId x).status = MessageStatus.seen)) :=
  ⟨by decide, by decide, by decide,
    C1_markDelivered_unconditional_write 2 [mDelivC1] mDelivC1 (by decide) (by decide) (by decide)⟩

/-- A message addressed to viewer `B`, from sender `S1`. -/
def m1C2 : Message :=
  { id := 1, chatRoomId := "x", senderId := "S1", receiverId := "B",
    message := "one", status := MessageStatus.sent, timestamp := 0,
    replyTo := Option.none, isEdited := false, deletedFor := [],
    deleteType := DeleteType.none }

/-- A message in the same batch that is NOT addressed to viewer `B`: its
sender is `S2` and its receiver is `C`. -/
def m2C2 : Message :=
  { id := 2, chatRoomId := "x", senderId := "S2", receiverId := "C",
    message := "two", status := MessageStatus.sent, timestamp := 1,
    replyTo := Option.none, isEdited := false, deletedFor := [],
    deleteType := DeleteType.none }

/-- C2 counterexample: `markSeen([m1, m2], B)` with `m2` not addressed to `B`
leaves `m2` untouched (the claim's first half), but the handler computes the
notification targets from ALL messages of the batch, so `m2`'s sender `S2` is
notified even though `m2` did not change — refuting "m2's sender receives no
notification". -/
theorem C2_unchanged_sender_notified_counterexample :
    (messageSeenHandler [1, 2] "B" [m1C2, m2C2]).1.map (fun m => (m.id, m.status)) =
      [(1, MessageStatus.seen), (2, MessageStatus.sent)] ∧
    "S2" ∈ (messageSeenHandler [1, 2] "B" [m1C2, m2C2]).2 := by
  refine ⟨rfl, by decide⟩

/-- C2 amended: only messages whose `receiverId` equals the calling user
transition to `seen` (others in the batch are silently skipped), but the
seen-notification targets are the distinct `senderId`s of ALL messages in the
batch — changed or not — because the handler's `Message.find` carries no
`receiverId` filter. -/
theorem C2_markSeen_scope_and_notification (messageIds : List Nat)
    (userId : String) (db : List Message) :
    (∀ m ∈ db, m.receiverId ≠ userId → markSeenStep messageIds userId m = m) ∧
    (∀ m ∈ db, m.id ∈ messageIds → m.receiverId = userId →
      (markSeenStep messageIds userId m).status = MessageStatus.seen) ∧
    (∀ s, s ∈ (messageSeenHandler messageIds userId db).2 ↔
      ∃ m ∈ db, m.id ∈ messageIds ∧ m.senderId = s) := by
  refine ⟨?_, ?_, ?_⟩
  · intro m _ hne
    unfold markSeenStep
    rw [if_neg]
    rintro ⟨_, hrec⟩
    exact hne hrec
  · intro m _ hin hrec
    unfold markSeenStep
    rw [if_pos ⟨hin, hrec⟩]
  · intro s
    show s ∈ seenNotifiedSenders messageIds (markSeen messageIds userId db) ↔ _
    unfold seenNotifiedSenders
    rw [mem_jsDedup]
    constructor
    · intro hs
      obtain ⟨m2, hm2, hsid⟩ := List.mem_map.mp hs
      obtain ⟨hm2mem, hm2filt⟩ := List.mem_filter.mp hm2
      obtain ⟨m, hm, hstep⟩ := List.mem_map.mp hm2mem
      refine ⟨m, hm, ?_, ?_⟩
      · have hidm : m2.id = m.id := by rw [← hstep, markSeenStep_id]
        have := of_decide_eq_true hm2filt
        rwa [hidm] at this
      · rw [← hsid, ← hstep, markSeenStep_senderId]
    · rintro ⟨m, hm, hin, hsid⟩
      refine List.mem_map.mpr ⟨markSeenStep messageIds userId m, ?_, ?_⟩
      · refine List.mem_filter.mpr ⟨List.mem_map_of_mem _ hm, ?_⟩
        rw [markSeenStep_id]
        exact decide_eq_true hin
      · rw [markSeenStep_senderId]
        exact hsid

theorem C2_markSeen_scope_and_notification_witness :
    (∀ m ∈ [m1C2, m2C2], m.receiverId ≠ "B" → markSeenStep [1, 2] "B" m = m) ∧
    (∀ m ∈ [m1C2, m2C2], m.id ∈ [1, 2] → m.receiverId = "B" →
      (markSeenStep [1, 2] "B" m).status = MessageStatus.seen) ∧
    (∀ s, s ∈ (messageSeenHandler [1, 2] "B" [m1C2, m2C2]).2 ↔
      ∃ m ∈ [m1C2, m2C2], m.id ∈ [1, 2] ∧ m.senderId = s) :=
  C2_markSeen_scope_and_notification [1, 2] "B" [m1C2, m2C2]

theorem deleteMeStep_id (msgId : Nat) (requester : String) (x : Message) :
    (if x.id = msgId then
       { x with deletedFor := x.deletedFor ++ [requester],
                deleteType := DeleteType.for_me }
     else x).id = x.id := by
  split <;> rfl

theorem deleteBothStep_id (msgId : Nat) (x : Message) :
    (if x.id = msgId then
       { x with deleteType := DeleteType.for_both,
                deletedFor := [x.senderId, x.receiverId] }
     else x).id = x.id := by
  split <;> rfl

/-- A record of an id-preserving bulk update that carries a member's id is the
updated member. -/
theorem mem_map_id_preserving (db : List Message) (m : Message)
    (f : Message → Message) (hf : ∀ y, (f y).id = y.id)
    (hnd : (db.map (fun x => x.id)).Nodup) (hm : m ∈ db)
    (x : Message) (hx : x ∈ db.map f) (hxid : x.id = m.id) : x = f m := by
  obtain ⟨y, hy, hxy⟩ := List.mem_map.mp hx
  have hyid : y.id = m.id := by rw [← hf y, hxy, hxid]
  have hym : y = m := List.inj_on_of_nodup_map hnd hy hm hyid
  rw [← hxy, hym]

/-- On a stored message, the `deleteFor === 'me'` branch of the
`delete-message` handler reduces to its guarded update. -/
theorem deleteMessage_me_of_mem (db : List Message) (m : Message)
    (requester : String) (hnd : (db.map (fun x => x.id)).Nodup) (hm : m ∈ db) :
    deleteMessage m.id requester DeleteFor.me db =
      if requester ∈ m.deletedFor then Except.ok db
      else Except.ok (db.map (fun x =>
        if x.id = m.id then
          { x with deletedFor := x.deletedFor ++ [requester],
                   deleteType := DeleteType.for_me }
        else x)) := by
  unfold deleteMessage
  rw [find?_id_eq_of_mem db m hnd hm]

/-- On a stored message, the `deleteFor === 'both'` branch of the
`delete-message` handler reduces to its unconditional update. -/
theorem deleteMessage_both_of_mem (db : List Message) (m : Message)
    (requester : String) (hnd : (db.map (fun x => x.id)).Nodup) (hm : m ∈ db) :
    deleteMessage m.id requester DeleteFor.both db =
      Except.ok (db.map (fun x =>
        if x.id = m.id then
          { x with deleteType := DeleteType.for_both,
                   deletedFor := [x.senderId, x.receiverId] }
        else x)) := by
  unfold deleteMessage
  rw [find?_id_eq_of_mem db m hnd hm]

/-- C3: history visibility. The unlimited history query (the HTTP route's
query, and the socket query before its limit) contains a stored message of the
conversation exactly when it is not excluded by `deleteScope = for_both` or by
the viewer appearing in `deletedFor`; consequently, after a
`for_sender_only` delete by participant `A`, viewer `A`'s history excludes the
message (on both the HTTP and the limited socket path) while viewer `B`'s
unlimited history still includes it; and after a `for_both` delete both
viewers' histories exclude it. -/
theorem C3_delete_visibility (A B : String) (db : List Message) (m : Message)
    (hm : m ∈ db) (hnd : (db.map (fun x => x.id)).Nodup)
    (hroom : m.chatRoomId = generateChatRoomId A B)
    (hAnot : A ∉ m.deletedFor) (hBnot : B ∉ m.deletedFor) (hBA : B ≠ A)
    (_hdel : m.deleteType ≠ DeleteType.for_both) :
    (∀ v o dbx x, x ∈ historyQuery v o dbx ↔
      x ∈ dbx ∧ x.chatRoomId = generateChatRoomId v o ∧
        ¬(x.deleteType = DeleteType.for_both ∨ v ∈ x.deletedFor)) ∧
    (∀ db2, deleteMessage m.id A DeleteFor.me db = Except.ok db2 →
      ∀ x ∈ db2, x.id = m.id →
        x ∉ historyQuery A B db2 ∧ x ∉ loadChatHistory A B db2 ∧
        x ∈ historyQuery B A db2) ∧
    (∀ db2, deleteMessage m.id A DeleteFor.both db = Except.ok db2 →
      ∀ x ∈ db2, x.id = m.id →
        x ∉ historyQuery A B db2 ∧ x ∉ historyQuery B A db2) := by
  refine ⟨fun v o dbx x => mem_historyQuery v o dbx x, ?_, ?_⟩
  · intro db2 hdel2 x hx hxid
    rw [deleteMessage_me_of_mem db m A hnd hm, if_neg hAnot] at hdel2
    injection hdel2 with hdb2
    subst hdb2
    have hxstep : x = { m with deletedFor := m.deletedFor ++ [A],
                               deleteType := DeleteType.for_me } := by
      have := mem_map_id_preserving db m _ (deleteMeStep_id m.id A) hnd hm x hx hxid
      rwa [if_pos rfl] at this
    have hexA : x ∉ historyQuery A B
        (db.map (fun y =>
          if y.id = m.id then
            { y with deletedFor := y.deletedFor ++ [A],
                     deleteType := DeleteType.for_me }
          else y)) := by
      intro hmem
      obtain ⟨_, _, hnot⟩ := (mem_historyQuery _ _ _ _).mp hmem
      apply hnot
      right
      rw [hxstep]
      exact List.mem_append_right _ (List.mem_singleton.mpr rfl)
    refine ⟨hexA, fun hmem => hexA (loadChatHistory_subset _ _ _ _ hmem), ?_⟩
    rw [mem_historyQuery]
    refine ⟨hx, ?_, ?_⟩
    · rw [hxstep]
      show m.chatRoomId = generateChatRoomId B A
      rw [hroom, generateChatRoomId_comm]
    · rw [hxstep]
      rintro (hb | hb)
      · exact DeleteType.noConfusion hb
      · rcases List.mem_append.mp hb with hb2 | hb2
        · exact hBnot hb2
        · exact hBA (List.mem_singleton.mp hb2)
  · intro db2 hdel2 x hx hxid
    rw [deleteMessage_both_of_mem db m A hnd hm] at hdel2
    injection hdel2 with hdb2
    subst hdb2
    have hxstep : x = { m with deleteType := DeleteType.for_both,
                               deletedFor := [m.senderId, m.receiverId] } := by
      have := mem_map_id_preserving db m _ (deleteBothStep_id m.id) hnd hm x hx hxid
      rwa [if_pos rfl] at this
    constructor <;>
      · intro hmem
        obtain ⟨_, _, hnot⟩ := (mem_historyQuery _ _ _ _).mp hmem
        apply hnot
        left
        rw [hxstep]

/-- A fresh visible message of the conversation between `a` and `b`, used as
the concrete input of the C3 witness. -/
def mC3 : Message :=
  { id := 1, chatRoomId := "a_b", senderId := "a", receiverId := "b",
    message := "hey", status := MessageStatus.sent, timestamp := 0,
    replyTo := Option.none, isEdited := false, deletedFor := [],
    deleteType := DeleteType.none }

theorem C3_delete_visibility_witness :
    mC3 ∈ [mC3] ∧ mC3.chatRoomId = generateChatRoomId "a" "b" ∧
    "a" ∉ mC3.deletedFor ∧ "b" ∉ mC3.deletedFor ∧ ("b" : String) ≠ "a" ∧
    mC3.deleteType ≠ DeleteType.for_both ∧
    ((∀ v o dbx x, x ∈ historyQuery v o dbx ↔
        x ∈ dbx ∧ x.chatRoomId = generateChatRoomId v o ∧
          ¬(x.deleteType = DeleteType.for_both ∨ v ∈ x.deletedFor)) ∧
      (∀ db2, deleteMessage mC3.id "a" DeleteFor.me [mC3] = Except.ok db2 →
        ∀ x ∈ db2, x.id = mC3.id →
          x ∉ historyQuery "a" "b" db2 ∧ x ∉ loadChatHistory "a" "b" db2 ∧
          x ∈ historyQuery "b" "a" db2) ∧
      (∀ db2, deleteMessage mC3.id "a" DeleteFor.both [mC3] = Except.ok db2 →
        ∀ x ∈ db2, x.id = mC3.id →
          x ∉ historyQuery "a" "b" db2 ∧ x ∉ historyQuery "b" "a" db2)) :=
  ⟨by decide, by decide, by decide, by decide, by decide, by decide,
    C3_delete_visibility "a" "b" [mC3] mC3 (by decide) (by decide) (by decide)
      (by decide) (by decide) (by decide) (by decide)⟩

/-- C4: for a stored message whose requester is one of its two participants,
under the store invariant that a `for_both` delete has both participants in
`deletedFor`, the `for_sender_only` delete (a) is a no-op when the requester
is already in `deletedFor` (so a repeated call changes nothing), (b) leaves a
message whose `deleteScope` is already `for_both` completely unchanged (no
downgrade), (c) otherwise appends the requester to `deletedFor` and sets the
scope to `for_sender_only`, and only from a scope that was not `for_both`,
and (d) is idempotent. -/
theorem C4_deleteForMe_idempotent_no_downgrade (msgId : Nat) (requester : String)
    (db : List Message) (m : Message) (hm : m ∈ db) (hid : m.id = msgId)
    (hnd : (db.map (fun x => x.id)).Nodup)
    (hpart : requester = m.senderId ∨ requester = m.receiverId)
    (hinv : m.deleteType = DeleteType.for_both →
      m.senderId ∈ m.deletedFor ∧ m.receiverId ∈ m.deletedFor) :
    (requester ∈ m.deletedFor →
      deleteMessage msgId requester DeleteFor.me db = Except.ok db) ∧
    (m.deleteType = DeleteType.for_both →
      deleteMessage msgId requester DeleteFor.me db = Except.ok db) ∧
    (requester ∉ m.deletedFor →
      m.deleteType ≠ DeleteType.for_both ∧
      deleteMessage msgId requester DeleteFor.me db = Except.ok (db.map (fun x =>
        if x.id = msgId then
          { x with deletedFor := x.deletedFor ++ [requester],
                   deleteType := DeleteType.for_me }
        else x))) ∧
    (∀ db2, deleteMessage msgId requester DeleteFor.me db = Except.ok db2 →
      deleteMessage msgId requester DeleteFor.me db2 = Except.ok db2) := by
  subst hid
  have hnoop : requester ∈ m.deletedFor →
      deleteMessage m.id requester DeleteFor.me db = Except.ok db := by
    intro hin
    rw [deleteMessage_me_of_mem db m requester hnd hm, if_pos hin]
  refine ⟨hnoop, ?_, ?_, ?_⟩
  · intro hboth
    apply hnoop
    rcases hpart with h | h
    · rw [h]
      exact (hinv hboth).1
    · rw [h]
      exact (hinv hboth).2
  · intro hnotin
    constructor
    · intro hboth
      rcases hpart with h | h
      · exact hnotin (h ▸ (hinv hboth).1)
      · exact hnotin (h ▸ (hinv hboth).2)
    · rw [deleteMessage_me_of_mem db m requester hnd hm, if_neg hnotin]
  · intro db2 hdel2
    by_cases hin : requester ∈ m.deletedFor
    · rw [hnoop hin] at hdel2
      injection hdel2 with hdb2
      subst hdb2
      exact hnoop hin
    · rw [deleteMessage_me_of_mem db m requester hnd hm, if_neg hin] at hdel2
      injection hdel2 with hdb2
      subst hdb2
      have hnd2 : ((db.map (fun x =>
          if x.id = m.id then
            { x with deletedFor := x.deletedFor ++ [requester],
                     deleteType := DeleteType.for_me }
          else x)).map (fun x => x.id)).Nodup := by
        rw [List.map_map]
        have : ((fun x => x.id) ∘ (fun x =>
            if x.id = m.id then
              { x with deletedFor := x.deletedFor ++ [requester],
                       deleteType := DeleteType.for_me }
            else x)) = fun x : Message => x.id := by
          funext x
          exact deleteMeStep_id m.id requester x
        rw [this]
        exact hnd
      have hm2 : { m with deletedFor := m.deletedFor ++ [requester],
                          deleteType := DeleteType.for_me } ∈
          db.map (fun x =>
            if x.id = m.id then
              { x with deletedFor := x.deletedFor ++ [requester],
                       deleteType := DeleteType.for_me }
            else x) := by
        have hstep : (if m.id = m.id then
            { m with deletedFor := m.deletedFor ++ [requester],
                     deleteType := DeleteType.for_me }
          else m) = { m with deletedFor := m.deletedFor ++ [requester],
                             deleteType := DeleteType.for_me } := if_pos rfl
        exact hstep ▸ List.mem_map_of_mem _ hm
      have heq := deleteMessage_me_of_mem _ _ requester hnd2 hm2
      have hidset : ({ m with deletedFor := m.deletedFor ++ [requester],
                              deleteType := DeleteType.for_me } : Message).id = m.id := rfl
      rw [hidset] at heq
      rw [heq, if_pos (List.mem_append_right _ (List.mem_singleton.mpr rfl))]

/-- A fresh message used as the concrete input of the C4 witness. -/
def mC4 : Message :=
  { id := 3, chatRoomId := "a_b", senderId := "a", receiverId := "b",
    message := "del", status := MessageStatus.delivered, timestamp := 2,
    replyTo := Option.none, isEdited := false, deletedFor := [],
    deleteType := DeleteType.none }

theorem C4_deleteForMe_idempotent_no_downgrade_witness :
    mC4 ∈ [mC4] ∧ mC4.id = 3 ∧ (([mC4] : List Message).map (fun x => x.id)).Nodup ∧
    ("a" = mC4.senderId ∨ "a" = mC4.receiverId) ∧
    ((("a" : String) ∈ mC4.deletedFor →
        deleteMessage 3 "a" DeleteFor.me [mC4] = Except.ok [mC4]) ∧
      (mC4.deleteType = DeleteType.for_both →
        deleteMessage 3 "a" DeleteFor.me [mC4] = Except.ok [mC4]) ∧
      (("a" : String) ∉ mC4.deletedFor →
        mC4.deleteType ≠ DeleteType.for_both ∧
        deleteMessage 3 "a" DeleteFor.me [mC4] = Except.ok ([mC4].map (fun x =>
          if x.id = 3 then
            { x with deletedFor := x.deletedFor ++ ["a"],
                     deleteType := DeleteType.for_me }
          else x))) ∧
      (∀ db2, deleteMessage 3 "a" DeleteFor.me [mC4] = Except.ok db2 →
        deleteMessage 3 "a" DeleteFor.me db2 = Except.ok db2)) :=
  ⟨by decide, by decide, by decide, by decide,
    C4_deleteForMe_idempotent_no_downgrade 3 "a" [mC4] mC4 (by decide) (by decide)
      (by decide) (by decide) (fun h => absurd h (by decide))⟩


theorem emissionCount_append (l1 l2 : List Emission) (ev : String) (c : Nat) :
    emissionCount (l1 ++ l2) ev c = emissionCount l1 ev c + emissionCount l2 ev c := by
  unfold emissionCount
  rw [List.filter_append, List.length_append]

theorem emissionCount_cons (e : Emission) (l : List Emission) (ev : String) (c : Nat) :
    emissionCount (e :: l) ev c =
      (if e.event = ev ∧ e.target = c then 1 else 0) + emissionCount l ev c := by
  unfold emissionCount
  rw [List.filter_cons]
  by_cases h : e.event = ev ∧ e.target = c
  · simp [h.1, h.2, Nat.add_comm]
  · have hb : (decide (e.event = ev) && decide (e.target = c)) = false := by
      rcases Decidable.not_and_iff_or_not.mp h with h1 | h1 <;> simp [h1]
    rw [hb]
    simp [h]

theorem emissionCount_map_same (sockets : List Nat) (ev : String) (c : Nat) :
    emissionCount (sockets.map (fun s => { event := ev, target := s })) ev c =
      sockets.count c := by
  induction sockets with
  | nil => rfl
  | cons a l ih =>
    rw [List.map_cons, emissionCount_cons, ih, List.count_cons]
    by_cases hac : a = c
    · simp [hac, Nat.add_comm]
    · have : ¬ (ev = ev ∧ a = c) := fun h => hac h.2
      simp [this, hac]

theorem emissionCount_map_other (sockets : List Nat) (ev ev2 : String)
    (hne : ev ≠ ev2) (c : Nat) :
    emissionCount (sockets.map (fun s => { event := ev, target := s })) ev2 c = 0 := by
  induction sockets with
  | nil => rfl
  | cons a l ih =>
    rw [List.map_cons, emissionCount_cons, ih]
    have : ¬ ((Emission.mk ev a).event = ev2 ∧ (Emission.mk ev a).target = c) :=
      fun h => hne h.1
    simp [this]

/-- The two rooms of the C6 counterexample: sender `A` has the single socket
`7`, receiver `B` has the single socket `8`. -/
def roomsC6 : List (String × List Nat) := [("A", [7]), ("B", [8])]

/-- C6 counterexample: socket `7` is `A`'s only connection and is the
originating socket of the send; it receives the `message-sent` confirmation
TWICE (once from `socket.emit`, once from `io.to(senderId)`), refuting
"exactly once per sender connection". -/
theorem C6_double_confirmation_counterexample :
    roomSockets roomsC6 "A" = [7] ∧
    emissionCount (sendMessageEmissions roomsC6 "A" "B" 7) "message-sent" 7 = 2 ∧
    (2 : Nat) ≠ 1 := by
  refine ⟨rfl, by decide, by decide⟩

/-- C6 amended: per-connection delivery counts of the send fanout. Each
socket in the receiver's room gets `receive-message` as often as it occurs in
the room (once, for duplicate-free rooms), and none when sender and receiver
coincide (the duplicate second emission is suppressed while the confirmation
still occurs); each socket in the sender's room gets `message-sent` as often
as it occurs in the room PLUS one extra copy if it is the originating socket —
so the originating socket, which joined the sender's room, receives the
confirmation twice, not once. -/
theorem C6_send_fanout_counts (rooms : List (String × List Nat))
    (senderId receiverId : String) (origin c : Nat) :
    emissionCount (sendMessageEmissions rooms senderId receiverId origin)
        "receive-message" c =
      (if receiverId = senderId then 0 else (roomSockets rooms receiverId).count c) ∧
    emissionCount (sendMessageEmissions rooms senderId receiverId origin)
        "message-sent" c =
      (if c = origin then 1 else 0) + (roomSockets rooms senderId).count c := by
  unfold sendMessageEmissions
  by_cases hrs : receiverId = senderId
  · rw [if_neg (fun h => h hrs)]
    constructor
    · rw [if_pos hrs, List.nil_append, emissionCount_cons,
        emissionCount_map_other _ _ _ (by decide) c]
      simp
    · rw [List.nil_append, emissionCount_cons, emissionCount_map_same]
      by_cases hoc : c = origin
      · simp [hoc]
      · have : ¬ (("message-sent" : String) = "message-sent" ∧ origin = c) :=
          fun h => hoc h.2.symm
        have hco : ¬ origin = c := fun h => hoc h.symm
        simp [this, hoc, hco]
  · rw [if_pos hrs]
    constructor
    · rw [if_neg hrs, emissionCount_append, emissionCount_map_same,
        emissionCount_cons, emissionCount_map_other _ _ _ (by decide) c]
      simp
    · rw [emissionCount_append, emissionCount_map_other _ _ _ (by decide) c,
        emissionCount_cons, emissionCount_map_same]
      by_cases hoc : c = origin
      · simp [hoc]
      · have : ¬ (("message-sent" : String) = "message-sent" ∧ origin = c) :=
          fun h => hoc h.2.symm
        have hco : ¬ origin = c := fun h => hoc h.symm
        simp [this, hoc, hco]

/-- The online presence record used in the C7 counterexample. -/
def userC7 : PresenceUser := { userId := "A", isOnline := true, lastSeen := 0 }

/-- The connection table of the C7 counterexample: user `A` has two live
sockets, `1` and `2`. -/
def connsC7 : List (Nat × String) := [(1, "A"), (2, "A")]

/-- C7 counterexample: user `A` has two live connections; after socket `1`
disconnects, connection `(2, "A")` is still live, yet the handler flips `A`
offline (with `lastSeen` updated) and broadcasts `user-offline` — the
disconnect of a non-last connection is NOT a no-op. -/
theorem C7_nonlast_disconnect_counterexample :
    socketUser connsC7 1 = some "A" ∧
    (2, "A") ∈ (disconnectEvent connsC7 1 5 [userC7]).1 ∧
    (disconnectEvent connsC7 1 5 [userC7]).2.1 =
      [{ userId := "A", isOnline := false, lastSeen := 5 }] ∧
    (disconnectEvent connsC7 1 5 [userC7]).2.2 = ["A"] := by
  refine ⟨rfl, by decide, rfl, rfl⟩

/-- C7 amended: the `disconnect` handler is per-socket, not
last-connection-only. Whenever a disconnecting socket carries a `userId`, the
user is marked offline with the current timestamp and a `user-offline`
broadcast is issued, regardless of how many other live connections remain for
that user. -/
theorem C7_disconnect_flips_offline_unconditionally (conns : List (Nat × String))
    (sid now : Nat) (users : List PresenceUser) (u : String)
    (hu : socketUser conns sid = some u) :
    (∀ p ∈ users, p.userId = u →
      { p with isOnline := false, lastSeen := now } ∈
        (disconnectEvent conns sid now users).2.1) ∧
    (disconnectEvent conns sid now users).2.2 = [u] := by
  have h1 : (disconnectEvent conns sid now users).2.1 =
      users.map (fun p =>
        if p.userId = u then { p with isOnline := false, lastSeen := now } else p) := by
    show (disconnectHandler (socketUser conns sid) now users).1 = _
    rw [hu]
    rfl
  have h2 : (disconnectEvent conns sid now users).2.2 = [u] := by
    show (disconnectHandler (socketUser conns sid) now users).2 = _
    rw [hu]
    rfl
  refine ⟨?_, h2⟩
  intro p hp hpu
  rw [h1]
  have heq : (if p.userId = u then
      { p with isOnline := false, lastSeen := now } else p) =
      { p with isOnline := false, lastSeen := now } := if_pos hpu
  exact heq ▸ List.mem_map_of_mem _ hp

theorem C7_disconnect_flips_offline_unconditionally_witness :
    socketUser connsC7 2 = some "A" ∧
    ((∀ p ∈ [userC7], p.userId = "A" →
        { p with isOnline := false, lastSeen := 9 } ∈
          (disconnectEvent connsC7 2 9 [userC7]).2.1) ∧
      (disconnectEvent connsC7 2 9 [userC7]).2.2 = ["A"]) :=
  ⟨by decide,
    C7_disconnect_flips_offline_unconditionally connsC7 2 9 [userC7] "A" (by decide)⟩

/-- A visible message of the `a`/`b` conversation with timestamp (and id)
`i`, used to build the C8 store. -/
def mkMsgC8 (i : Nat) : Message :=
  { id := i, chatRoomId := "a_b", senderId := "a", receiverId := "b",
    message := "n", status := MessageStatus.sent, timestamp := i,
    replyTo := Option.none, isEdited := false, deletedFor := [],
    deleteType := DeleteType.none }

/-- A conversation with 101 visible messages, timestamps 0..100. -/
def dbC8 : List Message := (List.range 101).map mkMsgC8

/-- C8: evaluation of the socket history query at a conversation with 101
visible messages (timestamps 0..100). The query sorts ascending and then
applies `.limit(100)`, so it keeps the 100 OLDEST messages: the result has
length 100, is ascending, contains timestamp 0, and does NOT contain the most
recent message (timestamp 100) even though the unlimited filtered query does —
contradicting the claim (and the code's own comment `// Limit to last 100
messages`) that the 100 most recent are kept. -/
theorem C8_limit_keeps_oldest_not_most_recent :
    dbC8.length = 101 ∧
    (loadChatHistory "a" "b" dbC8).length = 100 ∧
    ((historyQuery "a" "b" dbC8).map (fun m => m.timestamp)).contains 100 = true ∧
    ((loadChatHistory "a" "b" dbC8).map (fun m => m.timestamp)).contains 100 = false ∧
    ((loadChatHistory "a" "b" dbC8).map (fun m => m.timestamp)).contains 0 = true ∧
    List.Pairwise (fun x y => x.timestamp ≤ y.timestamp) (loadChatHistory "a" "b" dbC8) := by
  refine ⟨rfl, by decide, by decide, by decide, by decide, by decide⟩

/-- C9 counterexample: a send whose `replyTo` (id 99) names no stored message
— the store is empty — still creates the message record, keeps the dangling
reference on it, and the populate step simply resolves to nothing; no
`InvalidReference` (or any other) error path exists in the creation step. -/
theorem C9_dangling_replyTo_counterexample :
    (createMessage "a" "b" "hi" (some 99) 5 1 []).1.length = 1 ∧
    (createMessage "a" "b" "hi" (some 99) 5 1 []).2.replyTo = some 99 ∧
    (createMessage "a" "b" "hi" (some 99) 5 1 []).2 ∈
      (createMessage "a" "b" "hi" (some 99) 5 1 []).1 ∧
    populateReplyTo (createMessage "a" "b" "hi" (some 99) 5 1 []).1
      (createMessage "a" "b" "hi" (some 99) 5 1 []).2 = Option.none := by
  refine ⟨rfl, rfl, by decide, rfl⟩

/-- C9 amended: the send handler performs no referential check on `replyTo`.
For every send request, the new record is appended to the store with the given
`replyTo` kept as-is; when the reference resolves to no stored message the
populate step returns nothing and the message stands with a dangling
reference — no `InvalidReference` error is surfaced and creation is not
prevented. -/
theorem C9_no_replyTo_validation (senderId receiverId body : String)
    (rid now newId : Nat) (db : List Message) :
    (createMessage senderId receiverId body (some rid) now newId db).1 =
      db ++ [(createMessage senderId receiverId body (some rid) now newId db).2] ∧
    (createMessage senderId receiverId body (some rid) now newId db).2.replyTo =
      some rid ∧
    ((∀ x ∈ (createMessage senderId receiverId body (some rid) now newId db).1,
        x.id ≠ rid) →
      populateReplyTo (createMessage senderId receiverId body (some rid) now newId db).1
        (createMessage senderId receiverId body (some rid) now newId db).2 =
        Option.none) := by
  refine ⟨rfl, rfl, ?_⟩
  intro hnone
  show ((createMessage senderId receiverId body (some rid) now newId db).2.replyTo).bind _ =
    Option.none
  rw [show (createMessage senderId receiverId body (some rid) now newId db).2.replyTo =
    some rid from rfl]
  show ((createMessage senderId receiverId body (some rid) now newId db).1.find?
    (fun x => x.id = rid)) = Option.none
  exact List.find?_eq_none.mpr (fun x hx => by simpa using hnone x hx)

theorem C9_no_replyTo_validation_witness :
    (∀ x ∈ (createMessage "a" "b" "hi" (some 99) 5 1 []).1, x.id ≠ 99) ∧
    ((createMessage "a" "b" "hi" (some 99) 5 1 []).1 =
        [] ++ [(createMessage "a" "b" "hi" (some 99) 5 1 []).2] ∧
      (createMessage "a" "b" "hi" (some 99) 5 1 []).2.replyTo = some 99 ∧
      ((∀ x ∈ (createMessage "a" "b" "hi" (some 99) 5 1 []).1, x.id ≠ 99) →
        populateReplyTo (createMessage "a" "b" "hi" (some 99) 5 1 []).1
          (createMessage "a" "b" "hi" (some 99) 5 1 []).2 = Option.none)) :=
  ⟨by decide, C9_no_replyTo_validation "a" "b" "hi" 99 5 1 []⟩

/-- C10: the `edit-message` handler checks only existence and sender
ownership. For a stored message, an edit by its sender succeeds and rewrites
exactly the body and the `isEdited` flag — the hypotheses place no constraint
on `status`, `deletedFor` or `deleteType`, so the edit succeeds regardless of
delete or delivery state; an edit by anyone else, or of a missing id, is
rejected with `Unauthorized` and produces no updated store. -/
theorem C10_edit_checks_only_ownership (messageId : Nat)
    (newBody requester : String) (db : List Message) (m : Message)
    (hm : m ∈ db) (hid : m.id = messageId)
    (hnd : (db.map (fun x => x.id)).Nodup) :
    (m.senderId = requester →
      editMessage messageId newBody requester db = Except.ok (db.map (fun x =>
        if x.id = messageId then { x with message := newBody, isEdited := true } else x)) ∧
      { m with message := newBody, isEdited := true } ∈ (db.map (fun x =>
        if x.id = messageId then { x with message := newBody, isEdited := true } else x))) ∧
    (m.senderId ≠ requester →
      editMessage messageId newBody requester db = Except.error "Unauthorized") ∧
    (∀ mid : Nat, (∀ x ∈ db, x.id ≠ mid) →
      editMessage mid newBody requester db = Except.error "Unauthorized") := by
  subst hid
  have heq : editMessage m.id newBody requester db =
      if m.senderId ≠ requester then Except.error "Unauthorized"
      else Except.ok (db.map (fun x =>
        if x.id = m.id then { x with message := newBody, isEdited := true } else x)) := by
    unfold editMessage
    rw [find?_id_eq_of_mem db m hnd hm]
  refine ⟨?_, ?_, ?_⟩
  · intro hs
    constructor
    · rw [heq, if_neg (not_not_intro hs)]
    · have hstep : (if m.id = m.id then
          { m with message := newBody, isEdited := true } else m) =
          { m with message := newBody, isEdited := true } := if_pos rfl
      exact hstep ▸ List.mem_map_of_mem _ hm
  · intro hs
    rw [heq, if_pos hs]
  · intro mid hnone
    unfold editMessage
    rw [List.find?_eq_none.mpr (fun x hx => by simpa using hnone x hx)]

/-- A message that is `seen` and deleted `for_both` (with both participants in
`deletedFor`), used as the concrete input of the C10 witness: its sender can
still edit it. -/
def mC10 : Message :=
  { id := 4, chatRoomId := "a_b", senderId := "a", receiverId := "b",
    message := "orig", status := MessageStatus.seen, timestamp := 3,
    replyTo := Option.none, isEdited := false, deletedFor := ["a", "b"],
    deleteType := DeleteType.for_both }

theorem C10_edit_checks_only_ownership_witness :
    mC10 ∈ [mC10] ∧ mC10.id = 4 ∧
    (([mC10] : List Message).map (fun x => x.id)).Nodup ∧
    mC10.status = MessageStatus.seen ∧ mC10.deleteType = DeleteType.for_both ∧
    ((mC10.senderId = "a" →
        editMessage 4 "new" "a" [mC10] = Except.ok ([mC10].map (fun x =>
          if x.id = 4 then { x with message := "new", isEdited := true } else x)) ∧
        { mC10 with message := "new", isEdited := true } ∈ ([mC10].map (fun x =>
          if x.id = 4 then { x with message := "new", isEdited := true } else x))) ∧
      (mC10.senderId ≠ "a" →
        editMessage 4 "new" "a" [mC10] = Except.error "Unauthorized") ∧
      (∀ mid : Nat, (∀ x ∈ [mC10], x.id ≠ mid) →
        editMessage mid "new" "a" [mC10] = Except.error "Unauthorized")) :=
  ⟨by decide, by decide, by decide, by decide, by decide,
    C10_edit_checks_only_ownership 4 "new" "a" [mC10] mC10 (by decide) (by decide)
      (by decide)⟩

theorem C5_generateChatRoomId_symmetric_sorted_witness :
    generateChatRoomId "b" "a" = generateChatRoomId "a" "b" ∧
    (∃ lo hi : String, generateChatRoomId "b" "a" = lo ++ "_" ++ hi ∧
      jsStrLt hi lo = false ∧ ((lo = "b" ∧ hi = "a") ∨ (lo = "a" ∧ hi = "b"))) ∧
    isUuidChar '_' = false :=
  C5_generateChatRoomId_symmetric_sorted "b" "a"

theorem C6_send_fanout_counts_witness :
    emissionCount (sendMessageEmissions roomsC6 "A" "B" 7) "receive-message" 7 =
      (if ("B" : String) = "A" then 0 else (roomSockets roomsC6 "B").count 7) ∧
    emissionCount (sendMessageEmissions roomsC6 "A" "B" 7) "message-sent" 7 =
      (if (7 : Nat) = 7 then 1 else 0) + (roomSockets roomsC6 "A").count 7 :=
  C6_send_fanout_counts roomsC6 "A" "B" 7 7
